import Mathlib

set_option maxRecDepth 100000

/-!
Verification development for the resident on-call scheduling program
(monthly_schedule.py).  The program compiles a constraint-satisfaction
model over boolean assignment variables, one per (resident, day, shift),
plus auxiliary penalty variables, and hands that model to an external
CP solver.

The embedding below mirrors the model-construction code: each rule
method of ResidentSchedulingSolver becomes a function that emits the
variable declarations, constraints and penalty terms the method adds to
the model.  Python exceptions (IndexError on list indexing, KeyError on
dict lookup, AttributeError on a not-yet-assigned attribute,
ZeroDivisionError, NameError, ValueError) are modelled with Except.
Python float arithmetic on the call ratio is modelled with exact
unnormalised fractions over Int; int() truncation toward zero is
modelled by Int.tdiv.  A solution of the compiled model is an
assignment String to Int of values to variable names; satisfaction of
each constraint kind follows the CP-SAT meaning of the operation the
code invokes (Add, AddExactlyOne, AddAtMostOne, AddImplication,
AddBoolXOr, AddBoolAnd, OnlyEnforceIf).
-/

/-- One resident record, as assembled by add_resident_info. -/
structure Resident where
  name : String
  on_vacation_days : List Nat
  on_trauma : Bool
  on_emergency : Bool
  days_override : Option Int
  claimed_days : List (Nat × String)
deriving DecidableEq

/-- Exact unnormalised fraction, modelling the real value of the float
arithmetic the source performs on the call ratio. -/
structure Frac where
  num : Int
  den : Int
deriving DecidableEq

/-- Integer as a fraction. -/
def Frac.ofInt (n : Int) : Frac := Frac.mk n 1

/-- Division of two integers, as in days_to_fill / resident_days_available. -/
def Frac.divInt (a b : Int) : Frac := Frac.mk a b

/-- Multiply a fraction by an integer on the right. -/
def Frac.mulInt (f : Frac) (k : Int) : Frac := Frac.mk (f.num * k) f.den

/-- Multiply an integer by a fraction. -/
def Frac.intMul (k : Int) (f : Frac) : Frac := Frac.mk (k * f.num) f.den

/-- Add an integer to a fraction. -/
def Frac.addInt (f : Frac) (k : Int) : Frac := Frac.mk (f.num + k * f.den) f.den

/-- Divide a fraction by an integer. -/
def Frac.divByInt (f : Frac) (k : Int) : Frac := Frac.mk f.num (f.den * k)

/-- Python int() applied to a real value: truncation toward zero.
Int.tdiv truncates the exact quotient toward zero. -/
def pyInt (f : Frac) : Int := Int.tdiv f.num f.den

/-- State of the ResidentSchedulingSolver object after construction
(the scheduling configuration of one run).  call_ratio is Option
because in the source the attribute only exists once add_resident_info
has run calculate_call_ratio at least once. -/
structure Solver where
  classification : String
  num_days : Nat
  trauma_shift_multiplier : Int
  shifts : List String
  max_shifts_per_week : Nat
  extra_friday_penalty_amount : Int
  half_day_call_penalty : Int
  nofill : List Nat
  days_to_fill : Int
  working_days : List Nat
  weekends_and_holidays : List Nat
  residents_info : List Resident
  call_ratio : Option Frac
deriving DecidableEq

/-- Model of build_weekday_list in the constructor:
range(weekday, num_days, len(Weekday)) with len(Weekday) = 7. -/
def weekday_list (w : Nat) (num_days : Nat) : List Nat :=
  (List.range num_days).filter (fun d => w ≤ d && (d - w) % 7 == 0)

/-- Vacation-day stripping performed by add_resident_info: for each
no-fill day, try to remove it from the vacation list and silently
ignore the failure (try remove except pass). -/
def stripDays (nofill : List Nat) (vac : List Nat) : List Nat :=
  nofill.foldl (fun v d => v.erase d) vac

/-- The denominator of calculate_call_ratio:
sum over residents of (1 + on_trauma * (multiplier - 1)) *
(days_to_fill - number of vacation days). -/
def availability (mult : Int) (days_to_fill : Int) (ri : List Resident) : Int :=
  (ri.map (fun r =>
    (1 + (if r.on_trauma then (1 : Int) else 0) * (mult - 1))
      * (days_to_fill - (r.on_vacation_days.length : Int)))).sum

/-- Solver state during __init__, before the lines that assign
self.nofill and self.days_to_fill have run: those attributes, and
call_ratio, may be absent. -/
structure InitState where
  classification : String
  num_days : Nat
  trauma_shift_multiplier : Int
  shifts : List String
  max_shifts_per_week : Nat
  extra_friday_penalty_amount : Int
  half_day_call_penalty : Int
  residents_info : List Resident
  nofill : Option (List Nat)
  days_to_fill : Option Int
  call_ratio : Option Frac
deriving DecidableEq

/-- add_resident_info as callable during __init__: it loops over
self.nofill (AttributeError when absent), strips those days from the
vacation list, appends the record, and runs calculate_call_ratio,
which reads self.days_to_fill (AttributeError when absent) and
divides by the availability sum (ZeroDivisionError when zero). -/
def init_add_resident_info (st : InitState) (r : Resident) : Except String InitState := do
  let nf ← match st.nofill with
    | some nf => pure nf
    | none => Except.error ("AttributeError: nofill")
  let vac := stripDays nf r.on_vacation_days
  let ri := st.residents_info ++
    [Resident.mk r.name vac r.on_trauma r.on_emergency r.days_override r.claimed_days]
  let dtf ← match st.days_to_fill with
    | some d => pure d
    | none => Except.error ("AttributeError: days_to_fill")
  let avail := availability st.trauma_shift_multiplier dtf ri
  if avail == 0 then Except.error ("ZeroDivisionError: division by zero")
  else pure (InitState.mk st.classification st.num_days st.trauma_shift_multiplier st.shifts
    st.max_shifts_per_week st.extra_friday_penalty_amount st.half_day_call_penalty
    ri st.nofill st.days_to_fill (some (Frac.divInt dtf avail)))

/-- The residents_info loop of __init__. -/
def initFold (st : InitState) : List Resident → Except String InitState
  | [] => Except.ok st
  | r :: rs => do
    let st2 ← init_add_resident_info st r
    initFold st2 rs

/-- add_holiday: remove the day from working_days (ValueError when
absent), append it to weekends_and_holidays, and sort both lists. -/
def add_holiday (p : List Nat × List Nat) (day : Nat) : Except String (List Nat × List Nat) :=
  if p.1.contains day then
    Except.ok (((p.1.erase day).insertionSort (fun a b => a ≤ b)),
               ((p.2 ++ [day]).insertionSort (fun a b => a ≤ b)))
  else Except.error ("ValueError: list remove x not in list")

/-- The holidays loop of __init__. -/
def holidayFold (p : List Nat × List Nat) : List Nat → Except String (List Nat × List Nat)
  | [] => Except.ok p
  | h :: hs => do
    let p2 ← add_holiday p h
    holidayFold p2 hs

/-- __init__ of ResidentSchedulingSolver (start_date is only used for
report printing and is omitted).  The residents_info loop runs before
self.nofill and self.days_to_fill are assigned. -/
def mkSolver (num_days : Nat) (nofill : List Nat) (max_shifts_per_week : Nat)
    (extra_friday_penalty : Int) (residents_info : List Resident) (holidays : List Nat)
    (shifts : List String) (classification : String) : Except String Solver := do
  let st0 := InitState.mk classification num_days 2 shifts max_shifts_per_week
    extra_friday_penalty 2 [] none none none
  let st1 ← initFold st0 residents_info
  let wd0 := weekday_list 0 num_days ++ weekday_list 1 num_days ++ weekday_list 2 num_days
             ++ weekday_list 3 num_days ++ weekday_list 4 num_days
  let we0 := weekday_list 5 num_days ++ weekday_list 6 num_days
  let p ← holidayFold (wd0, we0) holidays
  pure (Solver.mk st1.classification num_days st1.trauma_shift_multiplier shifts
    max_shifts_per_week extra_friday_penalty st1.half_day_call_penalty
    nofill ((num_days : Int) - (nofill.length : Int)) p.1 p.2
    st1.residents_info st1.call_ratio)

/-- add_resident_info called after construction, when nofill and
days_to_fill exist on the object. -/
def add_resident_info (s : Solver) (name : String) (on_vacation_days : List Nat)
    (on_trauma : Bool) (on_emergency : Bool) (days_override : Option Int)
    (claimed_days : List (Nat × String)) : Except String Solver := do
  let vac := stripDays s.nofill on_vacation_days
  let ri := s.residents_info ++
    [Resident.mk name vac on_trauma on_emergency days_override claimed_days]
  let avail := availability s.trauma_shift_multiplier s.days_to_fill ri
  if avail == 0 then Except.error ("ZeroDivisionError: division by zero")
  else pure (Solver.mk s.classification s.num_days s.trauma_shift_multiplier s.shifts
    s.max_shifts_per_week s.extra_friday_penalty_amount s.half_day_call_penalty
    s.nofill s.days_to_fill s.working_days s.weekends_and_holidays
    ri (some (Frac.divInt s.days_to_fill avail)))

/-- A boolean literal of the model: a variable, positive or negated. -/
structure Lit where
  var : String
  pos : Bool
deriving DecidableEq

/-- Comparison operator of a linear constraint. -/
inductive Cmp where
  | eq
  | le
  | ge
  | gt
  | ne
deriving DecidableEq

/-- The constraint kinds the source emits on the CP model. -/
inductive CKind where
  | linear (terms : List (Int × String)) (cmp : Cmp) (rhs : Int)
  | exactlyOne (lits : List Lit)
  | atMostOne (lits : List Lit)
  | implication (a b : Lit)
  | boolXor (lits : List Lit)
  | boolAnd (lits : List Lit)
deriving DecidableEq

/-- A constraint, with its OnlyEnforceIf enforcement literals
(empty means always enforced). -/
structure Constraint where
  enforce : List Lit
  kind : CKind
deriving DecidableEq

/-- The variable declarations, constraints and penalty terms a rule
method adds to the model. -/
structure Emitted where
  decls : List (String × Int × Int)
  cons : List Constraint
  pens : List String
deriving DecidableEq

/-- Emitted nothing. -/
def emptyEm : Emitted := Emitted.mk [] [] []

/-- Concatenation of emitted model parts, in program order. -/
def Emitted.app (a b : Emitted) : Emitted :=
  Emitted.mk (a.decls ++ b.decls) (a.cons ++ b.cons) (a.pens ++ b.pens)

/-- The compiled model: variable declarations with bounds, the
constraint list, and the penalty list whose sum is minimized. -/
structure MState where
  decls : List (String × Int × Int)
  cons : List Constraint
  penalties : List String
deriving DecidableEq

/-- Name of the boolean variable for (resident, day, shift):
the f-string call_{name}_{day}_{shift} in add_resident_model. -/
def varName (name : String) (day : Nat) (shift : String) : String :=
  "call_" ++ name ++ "_" ++ toString day ++ "_" ++ shift

/-- self.schedules[name][day][shift]: list indexing raises IndexError
past the end, dict lookup of an unknown shift raises KeyError. -/
def schedVar (s : Solver) (name : String) (day : Nat) (shift : String) : Except String String :=
  if day < s.num_days then
    if s.shifts.contains shift then Except.ok (varName name day shift)
    else Except.error ("KeyError")
  else Except.error ("IndexError: list index out of range")

/-- self.shifts[0]; IndexError on an empty list. -/
def shifts0 (s : Solver) : Except String String :=
  match s.shifts with
  | [] => Except.error ("IndexError: list index out of range")
  | x :: _ => Except.ok x

/-- self.shifts[-1]; IndexError on an empty list. -/
def shiftsLast (s : Solver) : Except String String :=
  match s.shifts.getLast? with
  | some x => Except.ok x
  | none => Except.error ("IndexError: list index out of range")

/-- self.call_ratio; AttributeError when never computed. -/
def getCallRatio (s : Solver) : Except String Frac :=
  match s.call_ratio with
  | some q => Except.ok q
  | none => Except.error ("AttributeError: call_ratio")

/-- Monadic map over Except, by structural recursion. -/
def exMapM (f : α → Except String β) : List α → Except String (List β)
  | [] => Except.ok []
  | x :: xs => do
    let y ← f x
    let ys ← exMapM f xs
    pure (y :: ys)

/-- A single constraint var == k. -/
def eqKC (v : String) (k : Int) : Constraint :=
  Constraint.mk [] (CKind.linear [((1 : Int), v)] Cmp.eq k)

/-- assign_claimed_days: force each claimed (day, shift) variable to 1. -/
def assign_claimed_days_cons (s : Solver) (r : Resident) : Except String (List Constraint) :=
  exMapM (fun p => do
      let v ← schedVar s r.name p.1 p.2
      pure (eqKC v 1))
    r.claimed_days

/-- cant_book_vacation_days: for each day of the horizon that is a
vacation day of the resident, force every shift variable to 0. -/
def cant_book_vacation_days_cons (s : Solver) (r : Resident) : Except String (List Constraint) := do
  let lss ← exMapM (fun d =>
      exMapM (fun sh => do
          let v ← schedVar s r.name d sh
          pure (eqKC v 0))
        s.shifts)
    ((List.range s.num_days).filter (fun d => r.on_vacation_days.contains d))
  pure lss.flatten

/-- cant_book_nofill_days: for each no-fill day, force every shift
variable of the resident to 0.  (Defined in the source but not listed
in either build-function list of setup_model.) -/
def cant_book_nofill_days_cons (s : Solver) (r : Resident) : Except String (List Constraint) := do
  let lss ← exMapM (fun d =>
      exMapM (fun sh => do
          let v ← schedVar s r.name d sh
          pure (eqKC v 0))
        s.shifts)
    s.nofill
  pure lss.flatten

/-- emergency_wednesday_halfday: an on_emergency resident is forced to
0 on every shift of each working day whose weekday is Wednesday. -/
def emergency_wednesday_halfday_cons (s : Solver) (r : Resident) : Except String (List Constraint) :=
  if r.on_emergency then do
    let lss ← exMapM (fun d =>
        exMapM (fun sh => do
            let v ← schedVar s r.name d sh
            pure (eqKC v 0))
          s.shifts)
      (s.working_days.filter (fun d => d % 7 == 2))
    pure lss.flatten
  else pure []

/-- trauma_day_call: a resident not on trauma is forced to 0 on the
first shift of every working day. -/
def trauma_day_call_cons (s : Solver) (r : Resident) : Except String (List Constraint) :=
  if r.on_trauma then pure []
  else
    exMapM (fun d => do
        let s0 ← shifts0 s
        let v ← schedVar s r.name d s0
        pure (eqKC v 0))
      s.working_days

/-- The day filter of post_call_days: day % 7 != ignore, which in the
source is always true when ignore is None. -/
def ignoreFilter (ignore : Option Nat) (d : Nat) : Bool :=
  match ignore with
  | none => true
  | some i => d % 7 != i

/-- post_call_days: for every day except the optionally ignored
weekday, at most one of (last shift of day, each shift of day + 1). -/
def post_call_days_cons (s : Solver) (r : Resident) (ignore : Option Nat) :
    Except String (List Constraint) := do
  let lss ← exMapM (fun d =>
      exMapM (fun sh => do
          let ls ← shiftsLast s
          let v1 ← schedVar s r.name d ls
          let v2 ← schedVar s r.name (d + 1) sh
          pure (Constraint.mk [] (CKind.atMostOne [Lit.mk v1 true, Lit.mk v2 true])))
        s.shifts)
    ((List.range (s.num_days - 1)).filter (ignoreFilter ignore))
  pure lss.flatten

/-- prefer_full_day_call: per day, a penalty variable forced to at
least half_day_call_penalty whenever exactly one of the first and last
shift is worked, through an XOr with the negated control boolean. -/
def prefer_full_day_call_em (s : Solver) (r : Resident) : Except String Emitted := do
  let ems ← exMapM (fun day => do
      let fd := "full_day_" ++ r.name ++ "_" ++ toString day
      let hp := "penalty_" ++ r.name ++ "_halfday_" ++ toString day
      let s0 ← shifts0 s
      let sl ← shiftsLast s
      let v0 ← schedVar s r.name day s0
      let v1 ← schedVar s r.name day sl
      pure (Emitted.mk [(fd, 0, 1), (hp, 0, 16)]
        [Constraint.mk [] (CKind.boolXor [Lit.mk v0 true, Lit.mk v1 true, Lit.mk fd false]),
         Constraint.mk [Lit.mk fd true]
           (CKind.linear [((1 : Int), hp)] Cmp.ge s.half_day_call_penalty)]
        [hp]))
    (List.range s.num_days)
  pure (ems.foldl Emitted.app emptyEm)

/-- friday_implies_sunday: for every day with weekday Friday, the last
shift of that day implies every shift of day + 2.  The source indexes
self.schedules[name][day + 2] without a bounds check. -/
def friday_implies_sunday_cons (s : Solver) (r : Resident) : Except String (List Constraint) := do
  let lss ← exMapM (fun day =>
      exMapM (fun sh => do
          let ls ← shiftsLast s
          let v1 ← schedVar s r.name day ls
          let v2 ← schedVar s r.name (day + 2) sh
          pure (Constraint.mk [] (CKind.implication (Lit.mk v1 true) (Lit.mk v2 true))))
        s.shifts)
    ((List.range s.num_days).filter (fun d => d % 7 == 4))
  pure lss.flatten

/-- friday_implies_saturday: for every day with weekday Friday, the
last shift of that day implies every shift of day + 1.  The source
indexes self.schedules[name][day + 1] without a bounds check. -/
def friday_implies_saturday_cons (s : Solver) (r : Resident) : Except String (List Constraint) := do
  let lss ← exMapM (fun day =>
      exMapM (fun sh => do
          let ls ← shiftsLast s
          let v1 ← schedVar s r.name day ls
          let v2 ← schedVar s r.name (day + 1) sh
          pure (Constraint.mk [] (CKind.implication (Lit.mk v1 true) (Lit.mk v2 true))))
        s.shifts)
    ((List.range s.num_days).filter (fun d => d % 7 == 4))
  pure lss.flatten

/-- penalize_multiple_fridays: for each pair of Fridays one week
apart and both in the horizon, a conflict boolean whose truth enforces
that both last shifts are worked, and a penalty variable forced to at
least extra_friday_penalty_amount when the conflict boolean is true.
The direction making the conflict boolean true when both Fridays are
worked is not asserted (it is commented out in the source). -/
def penalize_multiple_fridays_em (s : Solver) (r : Resident) : Except String Emitted := do
  let ems ← exMapM (fun friday => do
      let other_friday := friday + 7
      if other_friday < s.num_days then do
        let conflict := r.name ++ "_Fridays_" ++ toString friday ++ "_" ++ toString other_friday
        let pen := "penalty_" ++ r.name ++ "_Fridays_" ++ toString friday ++ "_" ++ toString other_friday
        let ls ← shiftsLast s
        let v1 ← schedVar s r.name friday ls
        let v2 ← schedVar s r.name other_friday ls
        pure (Emitted.mk [(conflict, 0, 1), (pen, 0, 16)]
          [Constraint.mk [Lit.mk conflict true] (CKind.boolAnd [Lit.mk v1 true, Lit.mk v2 true]),
           Constraint.mk [Lit.mk conflict true]
             (CKind.linear [((1 : Int), pen)] Cmp.ge s.extra_friday_penalty_amount)]
          [pen])
      else pure emptyEm)
    ((List.range s.num_days).filter (fun d => d % 7 == 4))
  pure (ems.foldl Emitted.app emptyEm)

/-- disperse_call: per aligned week, a boolean equivalent to the
weekly call count exceeding max_shifts_per_week, and for each level i
above the cap a boolean whose truth enforces both that the weekly
count reaches i and that the weekly penalty variable is at least 2i.
The direction forcing those level booleans true is not asserted. -/
def disperse_call_em (s : Solver) (r : Resident) : Except String Emitted := do
  let ems ← exMapM (fun week => do
      let start_day := week * 7
      let rows ← exMapM (fun d =>
          exMapM (fun sh => do
              let v ← schedVar s r.name d sh
              pure (((1 : Int), v)))
            s.shifts)
        (List.range' start_day 7)
      let terms := rows.flatten
      let ex_name := r.name ++ "_week_" ++ toString week ++ "_exceeds_max"
      let wp_name := "Week_" ++ toString week ++ "_penalty_" ++ r.name
      let base := Emitted.mk [(ex_name, 0, 1), (wp_name, 0, 7)]
        [Constraint.mk [Lit.mk ex_name false]
           (CKind.linear terms Cmp.le (s.max_shifts_per_week : Int)),
         Constraint.mk [Lit.mk ex_name true]
           (CKind.linear terms Cmp.gt (s.max_shifts_per_week : Int))]
        []
      let em := (List.range' (s.max_shifts_per_week + 1) (7 - (s.max_shifts_per_week + 1))).foldl
        (fun (acc : Emitted) i =>
          let exi := "Week_" ++ toString week ++ "_penalty_" ++ r.name ++ "_exceeds_" ++ toString i
          Emitted.mk (acc.decls ++ [(exi, 0, 1)])
            (acc.cons ++
              [Constraint.mk [Lit.mk exi true] (CKind.linear terms Cmp.ge (i : Int)),
               Constraint.mk [Lit.mk exi true]
                 (CKind.linear [((1 : Int), wp_name)] Cmp.ge (2 * (i : Int)))])
            (acc.pens ++ [wp_name]))
        base
      pure em)
    (List.range (s.num_days / 7))
  pure (ems.foldl Emitted.app emptyEm)

/-- strictly_bounded: an integer variable equated to the calculation,
hard bounds, and two booleans equivalent to the calculation sitting
exactly at the lower (resp. upper) bound, both added as penalties. -/
def strictly_bounded_em (s : Solver) (r : Resident) (calculation : List String)
    (lower_bound : Int) (upper_bound : Int) (bounded_descriptor : String) : Emitted :=
  let st_name := bounded_descriptor ++ "_taken_" ++ r.name
  let lb_name := bounded_descriptor ++ "_lower_bound_" ++ r.name
  let ub_name := bounded_descriptor ++ "_upper_bound_" ++ r.name
  Emitted.mk [(st_name, 0, (s.num_days : Int)), (lb_name, 0, 1), (ub_name, 0, 1)]
    [Constraint.mk [] (CKind.linear (((1 : Int), st_name) ::
        calculation.map (fun v => ((-1 : Int), v))) Cmp.eq 0),
     Constraint.mk [] (CKind.linear [((1 : Int), st_name)] Cmp.ge lower_bound),
     Constraint.mk [] (CKind.linear [((1 : Int), st_name)] Cmp.le upper_bound),
     Constraint.mk [Lit.mk lb_name true] (CKind.linear [((1 : Int), st_name)] Cmp.eq lower_bound),
     Constraint.mk [Lit.mk ub_name true] (CKind.linear [((1 : Int), st_name)] Cmp.eq upper_bound),
     Constraint.mk [Lit.mk lb_name false] (CKind.linear [((1 : Int), st_name)] Cmp.ne lower_bound),
     Constraint.mk [Lit.mk ub_name false] (CKind.linear [((1 : Int), st_name)] Cmp.ne upper_bound)]
    [lb_name, ub_name]

/-- The expected night-shift count of set_shift_expectations.  The
source tests the override with Python truthiness (if days_override:),
so an override of 0 falls through to the computed formula. -/
def expectedNightShifts (s : Solver) (r : Resident) (cr : Frac) : Frac :=
  match r.days_override with
  | some d =>
      if d == 0 then
        Frac.mulInt (Frac.intMul ((s.num_days : Int) - (r.on_vacation_days.length : Int)) cr)
          (if r.on_trauma then s.trauma_shift_multiplier else 1)
      else Frac.ofInt d
  | none =>
      Frac.mulInt (Frac.intMul ((s.num_days : Int) - (r.on_vacation_days.length : Int)) cr)
        (if r.on_trauma then s.trauma_shift_multiplier else 1)

/-- set_shift_expectations: bound the total of last-shift variables
between int(expected - 1) and int(expected + 1), and the total of
first-shift variables over weekend and holiday days between
int(expected * 2 / 7 - 1) and int(expected * 2 / 7 + 1). -/
def set_shift_expectations_em (s : Solver) (r : Resident) : Except String Emitted := do
  let cr ← getCallRatio s
  let e := expectedNightShifts s r cr
  let calculation1 ← exMapM (fun d => do
      let ls ← shiftsLast s
      schedVar s r.name d ls)
    (List.range s.num_days)
  let em1 := strictly_bounded_em s r calculation1 (pyInt (Frac.addInt e (-1)))
    (pyInt (Frac.addInt e 1)) ("total_shifts")
  let ew := Frac.divByInt (Frac.mulInt e 2) 7
  let calculation2 ← exMapM (fun d => do
      let s0 ← shifts0 s
      schedVar s r.name d s0)
    s.weekends_and_holidays
  let em2 := strictly_bounded_em s r calculation2 (pyInt (Frac.addInt ew (-1)))
    (pyInt (Frac.addInt ew 1)) ("weekend_shift")
  pure (Emitted.app em1 em2)

/-- balance_trauma_call: bound the first-shift count of a trauma
resident over working days around its availability-proportional
expectation.  ZeroDivisionError when no trauma availability exists;
NameError when the loop assigning expected_day_shifts never runs. -/
def balance_trauma_call_em (s : Solver) (r : Resident) : Except String Emitted := do
  let num_trauma_days : Int := (s.working_days.length : Int)
  let trauma_days_available : Int := (s.residents_info.map (fun tr =>
      if tr.on_trauma then
        ((s.working_days.filter (fun d => !(tr.on_vacation_days.contains d))).length : Int)
      else 0)).sum
  if trauma_days_available == 0 then Except.error ("ZeroDivisionError: division by zero")
  else do
    let trauma_days_ratio := Frac.divInt num_trauma_days trauma_days_available
    let num_away_days : Int :=
      (((List.range s.num_days).filter (fun d => r.on_vacation_days.contains d)).length : Int)
    if (s.working_days.filter (fun d => !(r.on_vacation_days.contains d))).isEmpty then
      Except.error ("NameError: name expected_day_shifts is not defined")
    else do
      let expected_day_shifts := Frac.intMul (num_trauma_days - num_away_days) trauma_days_ratio
      let trauma_upper_bound := pyInt (Frac.addInt expected_day_shifts 1)
      let trauma_lower_bound := pyInt (Frac.addInt expected_day_shifts (-1))
      let calculation ← exMapM (fun d => do
          let s0 ← shifts0 s
          schedVar s r.name d s0)
        s.working_days
      pure (strictly_bounded_em s r calculation trauma_lower_bound trauma_upper_bound ("trauma_shifts"))

/-- The boolean variable declarations add_resident_model creates for
one resident: one per (day, shift). -/
def schedule_decls (s : Solver) (r : Resident) : List (String × Int × Int) :=
  ((List.range s.num_days).map (fun d =>
    s.shifts.map (fun sh => (varName r.name d sh, (0 : Int), (1 : Int))))).flatten

/-- The trailing conditional of add_resident_model: a trauma resident
under the junior classification additionally gets balance_trauma_call. -/
def balance_part (s : Solver) (r : Resident) : Except String Emitted :=
  if r.on_trauma then balance_trauma_call_em s r else pure emptyEm

/-- add_resident_model: declare the schedule variables and apply the
build functions of the classification in order; for a trauma resident
with the junior classification, additionally balance_trauma_call.
An unknown classification leaves build_functions unbound in
setup_model, a NameError at the first use. -/
def resident_emitted (s : Solver) (r : Resident) : Except String Emitted :=
  if s.classification = "junior" then do
    let c1 ← emergency_wednesday_halfday_cons s r
    let c2 ← cant_book_vacation_days_cons s r
    let c3 ← trauma_day_call_cons s r
    let c4 ← post_call_days_cons s r none
    let e5 ← prefer_full_day_call_em s r
    let e6 ← penalize_multiple_fridays_em s r
    let e7 ← disperse_call_em s r
    let e8 ← set_shift_expectations_em s r
    let c9 ← friday_implies_sunday_cons s r
    let c10 ← assign_claimed_days_cons s r
    let eb ← balance_part s r
    pure (Emitted.mk
      (schedule_decls s r ++ e5.decls ++ e6.decls ++ e7.decls ++ e8.decls ++ eb.decls)
      (c1 ++ c2 ++ c3 ++ c4 ++ e5.cons ++ e6.cons ++ e7.cons ++ e8.cons ++ c9 ++ c10 ++ eb.cons)
      (e5.pens ++ e6.pens ++ e7.pens ++ e8.pens ++ eb.pens))
  else if s.classification = "senior" then do
    let c2 ← cant_book_vacation_days_cons s r
    let c4 ← post_call_days_cons s r (some 4)
    let e6 ← penalize_multiple_fridays_em s r
    let e7 ← disperse_call_em s r
    let e8 ← set_shift_expectations_em s r
    let c9 ← friday_implies_saturday_cons s r
    let c10 ← assign_claimed_days_cons s r
    pure (Emitted.mk
      (schedule_decls s r ++ e6.decls ++ e7.decls ++ e8.decls)
      (c2 ++ c4 ++ e6.cons ++ e7.cons ++ e8.cons ++ c9 ++ c10)
      (e6.pens ++ e7.pens ++ e8.pens))
  else Except.error ("NameError: name build_functions is not defined")

/-- The per-resident loop of setup_model. -/
def all_residents_emitted (s : Solver) : List Resident → Except String Emitted
  | [] => Except.ok emptyEm
  | r :: rs => do
    let e ← resident_emitted s r
    let es ← all_residents_emitted s rs
    pure (Emitted.app e es)

/-- The coverage loop of setup_model: for every day not in the no-fill
list and every shift, exactly one resident is assigned. -/
def coverage_cons (s : Solver) : Except String (List Constraint) := do
  let lss ← exMapM (fun d =>
      exMapM (fun sh => do
          let lits ← exMapM (fun r => do
              let v ← schedVar s r.name d sh
              pure (Lit.mk v true))
            s.residents_info
          pure (Constraint.mk [] (CKind.exactlyOne lits)))
        s.shifts)
    ((List.range s.num_days).filter (fun d => !(s.nofill.contains d)))
  pure lss.flatten

/-- setup_model: reset penalties, build every resident model, add the
coverage constraints, and minimize the sum of the penalties. -/
def setup_model (s : Solver) : Except String MState := do
  let e ← all_residents_emitted s s.residents_info
  let cov ← coverage_cons s
  pure (MState.mk e.decls (e.cons ++ cov) e.pens)

/-- Truth of a literal under an assignment of integer values to
variable names (boolean variables hold 0 or 1). -/
def litVal (a : String → Int) (l : Lit) : Bool :=
  if l.pos then a l.var == 1 else a l.var == 0

/-- Value of a linear expression. -/
def evalTerms (a : String → Int) (ts : List (Int × String)) : Int :=
  (ts.map (fun t => t.1 * a t.2)).sum

/-- Meaning of a comparison operator. -/
def cmpB : Cmp → Int → Int → Bool
  | Cmp.eq, x, y => x == y
  | Cmp.le, x, y => decide (x ≤ y)
  | Cmp.ge, x, y => decide (y ≤ x)
  | Cmp.gt, x, y => decide (y < x)
  | Cmp.ne, x, y => x != y

/-- Satisfaction of a constraint kind, following the CP-SAT meaning of
the operation the source invokes. -/
def kindSat (a : String → Int) : CKind → Bool
  | CKind.linear ts c rhs => cmpB c (evalTerms a ts) rhs
  | CKind.exactlyOne ls => ls.countP (litVal a) == 1
  | CKind.atMostOne ls => decide (ls.countP (litVal a) ≤ 1)
  | CKind.implication p q => !litVal a p || litVal a q
  | CKind.boolXor ls => ls.countP (litVal a) % 2 == 1
  | CKind.boolAnd ls => ls.all (litVal a)

/-- A constraint holds when all its enforcement literals are true only
if its kind is satisfied. -/
def conSat (a : String → Int) (c : Constraint) : Bool :=
  !(c.enforce.all (litVal a)) || kindSat a c.kind

/-- Every declared variable lies within its declared bounds. -/
def admissibleB (a : String → Int) (ds : List (String × Int × Int)) : Bool :=
  ds.all (fun d => decide (d.2.1 ≤ a d.1) && decide (a d.1 ≤ d.2.2))

/-- A solution of the compiled model: admissible values satisfying all
constraints. -/
def modelSat (a : String → Int) (m : MState) : Bool :=
  admissibleB a m.decls && m.cons.all (conSat a)

/-- The minimized objective: the sum of the penalty terms. -/
def objectiveVal (a : String → Int) (m : MState) : Int :=
  (m.penalties.map a).sum

/-- Shift label used by the senior example runs. -/
def sNight : String := "night"

/-- First shift label of the default configuration. -/
def sDay : String := "day"

/-- Fallback solver value for reading an Except result. -/
def solverOf (e : Except String Solver) : Solver :=
  match e with
  | Except.ok s => s
  | Except.error _ => Solver.mk ("") 0 0 [] 0 0 0 [] 0 [] [] [] none

/-- Fallback model value for reading an Except result. -/
def modelOf (e : Except String MState) : MState :=
  match e with
  | Except.ok m => m
  | Except.error _ => MState.mk [] [] []

/-- Assignment given by an association list, defaulting to 0. -/
def mkAsg (l : List (String × Int)) (v : String) : Int := (l.lookup v).getD 0

/-- A senior-classification run: 7 days, day 3 not filled, a single
night shift, two residents with no vacation. -/
def egSolverE : Except String Solver := do
  let s0 ← mkSolver 7 [3] 1 5 [] [] [sNight] ("senior")
  let s1 ← add_resident_info s0 ("A") [] false false none []
  add_resident_info s1 ("B") [] false false none []

/-- The example senior solver. -/
def egSolver : Solver := solverOf egSolverE

/-- Its compiled model. -/
def egModel : MState := modelOf (setup_model egSolver)

/-- A solution of the example senior model in which resident B works
the no-fill day 3. -/
def egAssign : String → Int := mkAsg
  [(varName ("A") 0 (sNight), 1),
   (varName ("A") 2 (sNight), 1),
   (varName ("A") 4 (sNight), 1),
   (varName ("A") 5 (sNight), 1),
   (varName ("B") 1 (sNight), 1),
   (varName ("B") 3 (sNight), 1),
   (varName ("B") 6 (sNight), 1),
   (("total_shifts_taken_A"), 4),
   (("total_shifts_taken_B"), 3),
   (("weekend_shift_taken_A"), 1),
   (("weekend_shift_taken_B"), 1),
   (("total_shifts_upper_bound_A"), 1),
   (("A_week_0_exceeds_max"), 1),
   (("B_week_0_exceeds_max"), 1)]


/-- A junior-classification run: 7 days, two shifts per day, one
trauma resident and three others, no vacations. -/
def junSolverE : Except String Solver := do
  let s0 ← mkSolver 7 [] 1 5 [] [] [sDay, sNight] ("junior")
  let s1 ← add_resident_info s0 ("T") [] true false none []
  let s2 ← add_resident_info s1 ("U") [] false false none []
  let s3 ← add_resident_info s2 ("V") [] false false none []
  add_resident_info s3 ("W") [] false false none []

/-- The example junior solver. -/
def junSolver : Solver := solverOf junSolverE

/-- Its compiled model. -/
def junModel : MState := modelOf (setup_model junSolver)

/-- A solution of the example junior model. -/
def junAssign : String → Int := mkAsg
  [(varName ("T") 0 (sDay), 1), (varName ("T") 1 (sDay), 1),
   (varName ("T") 2 (sDay), 1), (varName ("T") 3 (sDay), 1),
   (varName ("T") 4 (sDay), 1), (varName ("T") 6 (sDay), 1),
   (varName ("U") 5 (sDay), 1),
   (varName ("U") 0 (sNight), 1), (varName ("V") 1 (sNight), 1),
   (varName ("U") 2 (sNight), 1), (varName ("V") 3 (sNight), 1),
   (varName ("T") 4 (sNight), 1), (varName ("W") 5 (sNight), 1),
   (varName ("T") 6 (sNight), 1),
   (("full_day_T_0"), 1), (("full_day_T_1"), 1),
   (("full_day_T_2"), 1), (("full_day_T_3"), 1),
   (("full_day_U_0"), 1), (("full_day_U_2"), 1), (("full_day_U_5"), 1),
   (("full_day_V_1"), 1), (("full_day_V_3"), 1),
   (("full_day_W_5"), 1),
   (("penalty_T_halfday_0"), 2), (("penalty_T_halfday_1"), 2),
   (("penalty_T_halfday_2"), 2), (("penalty_T_halfday_3"), 2),
   (("penalty_U_halfday_0"), 2), (("penalty_U_halfday_2"), 2),
   (("penalty_U_halfday_5"), 2),
   (("penalty_V_halfday_1"), 2), (("penalty_V_halfday_3"), 2),
   (("penalty_W_halfday_5"), 2),
   (("T_week_0_exceeds_max"), 1), (("U_week_0_exceeds_max"), 1),
   (("V_week_0_exceeds_max"), 1),
   (("total_shifts_taken_T"), 2), (("total_shifts_taken_U"), 2),
   (("total_shifts_taken_V"), 2), (("total_shifts_taken_W"), 1),
   (("total_shifts_upper_bound_U"), 1), (("total_shifts_upper_bound_V"), 1),
   (("weekend_shift_taken_T"), 1), (("weekend_shift_taken_U"), 1),
   (("weekend_shift_upper_bound_T"), 1), (("weekend_shift_upper_bound_U"), 1),
   (("weekend_shift_lower_bound_V"), 1), (("weekend_shift_lower_bound_W"), 1),
   (("trauma_shifts_taken_T"), 5)]


/-- A senior run over 14 days with no-fill days 2 and 9 and two
residents. -/
def c6solverE : Except String Solver := do
  let s0 ← mkSolver 14 [2, 9] 1 5 [] [] [sNight] ("senior")
  let s1 ← add_resident_info s0 ("X") [] false false none []
  add_resident_info s1 ("Y") [] false false none []

/-- The two-Friday senior solver. -/
def c6solver : Solver := solverOf c6solverE

/-- Its compiled model. -/
def c6model : MState := modelOf (setup_model c6solver)

/-- A solution in which resident X works the night shift of both
Friday 4 and Friday 11 while every Friday-pattern penalty variable and
every weekly dispersion penalty variable is zero. -/
def c6assign : String → Int := mkAsg
  [(varName ("X") 0 (sNight), 1), (varName ("X") 2 (sNight), 1),
   (varName ("X") 4 (sNight), 1), (varName ("X") 5 (sNight), 1),
   (varName ("X") 7 (sNight), 1), (varName ("X") 11 (sNight), 1),
   (varName ("X") 12 (sNight), 1),
   (varName ("Y") 1 (sNight), 1), (varName ("Y") 3 (sNight), 1),
   (varName ("Y") 6 (sNight), 1), (varName ("Y") 8 (sNight), 1),
   (varName ("Y") 10 (sNight), 1), (varName ("Y") 13 (sNight), 1),
   (("total_shifts_taken_X"), 7), (("total_shifts_taken_Y"), 6),
   (("total_shifts_lower_bound_Y"), 1),
   (("weekend_shift_taken_X"), 2), (("weekend_shift_taken_Y"), 2),
   (("X_week_0_exceeds_max"), 1), (("X_week_1_exceeds_max"), 1),
   (("Y_week_0_exceeds_max"), 1), (("Y_week_1_exceeds_max"), 1)]


/-- A senior run over 12 days: day 11 is a Friday whose following
Saturday (day 12) is outside the horizon. -/
def c5solverE : Except String Solver := do
  let s0 ← mkSolver 12 [] 1 5 [] [] [sNight] ("senior")
  add_resident_info s0 ("Z") [] false false none []

/-- The 12-day senior solver. -/
def c5solver : Solver := solverOf c5solverE


/-- A senior run over 28 days with one resident whose manual
expected-shift override is 0. -/
def c8solverE : Except String Solver := do
  let s0 ← mkSolver 28 [] 1 5 [] [] [sNight] ("senior")
  add_resident_info s0 ("O") [] false false (some 0) []

/-- The override-zero solver. -/
def c8solver : Solver := solverOf c8solverE

/-- Its registered resident. -/
def c8res : Resident := Resident.mk ("O") [] false false (some 0) []


/-! Helper lemmas about the Except combinators and the model builders. -/

theorem exBind_ok {α β : Type} {x : Except String α} {f : α → Except String β} {b : β}
    (h : x >>= f = Except.ok b) : ∃ a, x = Except.ok a ∧ f a = Except.ok b := by
  cases x with
  | error e => exact absurd h (by simp [Bind.bind, Except.bind])
  | ok a => exact ⟨a, rfl, by simpa [Bind.bind, Except.bind] using h⟩

theorem exPure_ok {α : Type} {x y : α} (h : (pure x : Except String α) = Except.ok y) : x = y :=
  Except.ok.inj h

theorem exMapM_ok_mem {α β : Type} {f : α → Except String β} :
    ∀ {l : List α} {ys : List β} {x : α},
      exMapM f l = Except.ok ys → x ∈ l → ∃ y, f x = Except.ok y ∧ y ∈ ys := by
  intro l
  induction l with
  | nil => intro ys x _ hx; cases hx
  | cons z zs ih =>
    intro ys x h hx
    rw [exMapM] at h
    obtain ⟨y0, hy0, h2⟩ := exBind_ok h
    obtain ⟨ys0, hys0, h3⟩ := exBind_ok h2
    have hys : y0 :: ys0 = ys := exPure_ok h3
    cases hx with
    | head => exact ⟨y0, hy0, by rw [← hys]; exact List.mem_cons_self _ _⟩
    | tail _ hx2 =>
      obtain ⟨y, hy, hmem⟩ := ih hys0 hx2
      exact ⟨y, hy, by rw [← hys]; exact List.mem_cons_of_mem _ hmem⟩

theorem exMapM_ok_of_all {α β : Type} {f : α → Except String β} {g : α → β} :
    ∀ {l : List α}, (∀ x ∈ l, f x = Except.ok (g x)) → exMapM f l = Except.ok (l.map g) := by
  intro l
  induction l with
  | nil => intro _; rfl
  | cons z zs ih =>
    intro hall
    rw [exMapM, hall z (List.mem_cons_self _ _), ih (fun x hx => hall x (List.mem_cons_of_mem _ hx))]
    rfl

theorem schedVar_ok {s : Solver} {n : String} {d : Nat} {sh v : String}
    (h : schedVar s n d sh = Except.ok v) : v = varName n d sh := by
  unfold schedVar at h
  split at h
  · split at h
    · exact (Except.ok.inj h).symm
    · exact absurd h (by simp)
  · exact absurd h (by simp)

theorem all_residents_emitted_mem {s : Solver} :
    ∀ {rs : List Resident} {e : Emitted} {r : Resident},
      all_residents_emitted s rs = Except.ok e → r ∈ rs →
      ∃ er, resident_emitted s r = Except.ok er ∧ ∀ c ∈ er.cons, c ∈ e.cons := by
  intro rs
  induction rs with
  | nil => intro e r _ hr; cases hr
  | cons x xs ih =>
    intro e r h hr
    rw [all_residents_emitted] at h
    obtain ⟨ex, hex, h2⟩ := exBind_ok h
    obtain ⟨exs, hexs, h3⟩ := exBind_ok h2
    have he : Emitted.app ex exs = e := exPure_ok h3
    cases hr with
    | head =>
      refine ⟨ex, hex, fun c hc => ?_⟩
      rw [← he]
      exact List.mem_append_left _ hc
    | tail _ hr2 =>
      obtain ⟨er, her, hsub⟩ := ih hexs hr2
      refine ⟨er, her, fun c hc => ?_⟩
      rw [← he]
      exact List.mem_append_right _ (hsub c hc)

theorem setup_model_ok {s : Solver} {m : MState} (h : setup_model s = Except.ok m) :
    ∃ e cov, all_residents_emitted s s.residents_info = Except.ok e ∧
      coverage_cons s = Except.ok cov ∧
      m.decls = e.decls ∧ m.cons = e.cons ++ cov ∧ m.penalties = e.pens := by
  rw [setup_model] at h
  obtain ⟨e, he, h2⟩ := exBind_ok h
  obtain ⟨cov, hcov, h3⟩ := exBind_ok h2
  have hm := exPure_ok h3
  exact ⟨e, cov, he, hcov, by rw [← hm], by rw [← hm], by rw [← hm]⟩

theorem resident_emitted_junior_parts {s : Solver} {r : Resident} {er : Emitted}
    (hc : s.classification = "junior")
    (h : resident_emitted s r = Except.ok er) :
    ∃ c1 c2 c3 c4 e5 e6 e7 e8 c9 c10 eb,
      emergency_wednesday_halfday_cons s r = Except.ok c1 ∧
      cant_book_vacation_days_cons s r = Except.ok c2 ∧
      trauma_day_call_cons s r = Except.ok c3 ∧
      post_call_days_cons s r none = Except.ok c4 ∧
      prefer_full_day_call_em s r = Except.ok e5 ∧
      penalize_multiple_fridays_em s r = Except.ok e6 ∧
      disperse_call_em s r = Except.ok e7 ∧
      set_shift_expectations_em s r = Except.ok e8 ∧
      friday_implies_sunday_cons s r = Except.ok c9 ∧
      assign_claimed_days_cons s r = Except.ok c10 ∧
      er.cons = c1 ++ c2 ++ c3 ++ c4 ++ e5.cons ++ e6.cons ++ e7.cons ++ e8.cons
        ++ c9 ++ c10 ++ eb := by
  rw [resident_emitted, if_pos hc] at h
  obtain ⟨c1, h1, h⟩ := exBind_ok h
  obtain ⟨c2, h2, h⟩ := exBind_ok h
  obtain ⟨c3, h3, h⟩ := exBind_ok h
  obtain ⟨c4, h4, h⟩ := exBind_ok h
  obtain ⟨e5, h5, h⟩ := exBind_ok h
  obtain ⟨e6, h6, h⟩ := exBind_ok h
  obtain ⟨e7, h7, h⟩ := exBind_ok h
  obtain ⟨e8, h8, h⟩ := exBind_ok h
  obtain ⟨c9, h9, h⟩ := exBind_ok h
  obtain ⟨c10, h10, h⟩ := exBind_ok h
  obtain ⟨eb, _, h⟩ := exBind_ok h
  have := exPure_ok h
  exact ⟨c1, c2, c3, c4, e5, e6, e7, e8, c9, c10, eb.cons,
    h1, h2, h3, h4, h5, h6, h7, h8, h9, h10, by rw [← this]⟩

theorem resident_emitted_senior_parts {s : Solver} {r : Resident} {er : Emitted}
    (hc : s.classification = "senior")
    (h : resident_emitted s r = Except.ok er) :
    ∃ c2 c4 e6 e7 e8 c9 c10,
      cant_book_vacation_days_cons s r = Except.ok c2 ∧
      post_call_days_cons s r (some 4) = Except.ok c4 ∧
      penalize_multiple_fridays_em s r = Except.ok e6 ∧
      disperse_call_em s r = Except.ok e7 ∧
      set_shift_expectations_em s r = Except.ok e8 ∧
      friday_implies_saturday_cons s r = Except.ok c9 ∧
      assign_claimed_days_cons s r = Except.ok c10 ∧
      er.cons = c2 ++ c4 ++ e6.cons ++ e7.cons ++ e8.cons ++ c9 ++ c10 := by
  have hne : ¬ s.classification = "junior" := by rw [hc]; decide
  rw [resident_emitted, if_neg hne, if_pos hc] at h
  obtain ⟨c2, h2, h⟩ := exBind_ok h
  obtain ⟨c4, h4, h⟩ := exBind_ok h
  obtain ⟨e6, h6, h⟩ := exBind_ok h
  obtain ⟨e7, h7, h⟩ := exBind_ok h
  obtain ⟨e8, h8, h⟩ := exBind_ok h
  obtain ⟨c9, h9, h⟩ := exBind_ok h
  obtain ⟨c10, h10, h⟩ := exBind_ok h
  have := exPure_ok h
  exact ⟨c2, c4, e6, e7, e8, c9, c10, h2, h4, h6, h7, h8, h9, h10, by rw [← this]⟩

theorem trauma_day_call_cons_mem {s : Solver} {r : Resident} {cs : List Constraint}
    (h : trauma_day_call_cons s r = Except.ok cs) (hnt : r.on_trauma = false)
    {d : Nat} (hd : d ∈ s.working_days)
    {s0 : String} (h0 : shifts0 s = Except.ok s0) :
    eqKC (varName r.name d s0) 0 ∈ cs := by
  rw [trauma_day_call_cons, hnt] at h
  simp only [Bool.false_eq_true, if_false] at h
  obtain ⟨y, hy, hmem⟩ := exMapM_ok_mem h hd
  obtain ⟨s1, hs1, hy2⟩ := exBind_ok hy
  obtain ⟨v, hv, hy3⟩ := exBind_ok hy2
  have hs01 : s1 = s0 := Except.ok.inj (hs1.symm.trans h0)
  have hveq := schedVar_ok hv
  have := exPure_ok hy3
  rw [← this, hveq, hs01] at hmem
  exact hmem

theorem post_call_days_cons_mem {s : Solver} {r : Resident} {ig : Option Nat}
    {cs : List Constraint}
    (h : post_call_days_cons s r ig = Except.ok cs)
    {d : Nat} (hd : d + 1 < s.num_days)
    (hig : ignoreFilter ig d = true)
    {sh : String} (hsh : sh ∈ s.shifts)
    {ls : String} (hls : shiftsLast s = Except.ok ls) :
    Constraint.mk [] (CKind.atMostOne
      [Lit.mk (varName r.name d ls) true, Lit.mk (varName r.name (d + 1) sh) true]) ∈ cs := by
  rw [post_call_days_cons] at h
  obtain ⟨lss, hlss, h2⟩ := exBind_ok h
  have hcs : lss.flatten = cs := exPure_ok h2
  have hdmem : d ∈ (List.range (s.num_days - 1)).filter (ignoreFilter ig) := by
    rw [List.mem_filter, List.mem_range]
    exact ⟨by omega, hig⟩
  obtain ⟨dl, hdl, hdlmem⟩ := exMapM_ok_mem hlss hdmem
  obtain ⟨c, hc, hcmem⟩ := exMapM_ok_mem hdl hsh
  obtain ⟨ls1, hls1, hc2⟩ := exBind_ok hc
  obtain ⟨v1, hv1, hc3⟩ := exBind_ok hc2
  obtain ⟨v2, hv2, hc4⟩ := exBind_ok hc3
  have hlseq : ls1 = ls := Except.ok.inj (hls1.symm.trans hls)
  have hce := exPure_ok hc4
  rw [← hcs]
  refine List.mem_flatten.mpr ⟨dl, hdlmem, ?_⟩
  rw [← hce, schedVar_ok hv1, schedVar_ok hv2, hlseq] at hcmem
  exact hcmem

theorem friday_implies_sunday_cons_mem {s : Solver} {r : Resident} {cs : List Constraint}
    (h : friday_implies_sunday_cons s r = Except.ok cs)
    {d : Nat} (hd : d < s.num_days) (hf : d % 7 = 4)
    {sh : String} (hsh : sh ∈ s.shifts)
    {ls : String} (hls : shiftsLast s = Except.ok ls) :
    Constraint.mk [] (CKind.implication (Lit.mk (varName r.name d ls) true)
      (Lit.mk (varName r.name (d + 2) sh) true)) ∈ cs := by
  rw [friday_implies_sunday_cons] at h
  obtain ⟨lss, hlss, h2⟩ := exBind_ok h
  have hcs : lss.flatten = cs := exPure_ok h2
  have hdmem : d ∈ (List.range s.num_days).filter (fun d => d % 7 == 4) := by
    rw [List.mem_filter, List.mem_range]
    exact ⟨hd, by simp [hf]⟩
  obtain ⟨dl, hdl, hdlmem⟩ := exMapM_ok_mem hlss hdmem
  obtain ⟨c, hc, hcmem⟩ := exMapM_ok_mem hdl hsh
  obtain ⟨ls1, hls1, hc2⟩ := exBind_ok hc
  obtain ⟨v1, hv1, hc3⟩ := exBind_ok hc2
  obtain ⟨v2, hv2, hc4⟩ := exBind_ok hc3
  have hlseq : ls1 = ls := Except.ok.inj (hls1.symm.trans hls)
  have hce := exPure_ok hc4
  rw [← hcs]
  refine List.mem_flatten.mpr ⟨dl, hdlmem, ?_⟩
  rw [← hce, schedVar_ok hv1, schedVar_ok hv2, hlseq] at hcmem
  exact hcmem

theorem friday_implies_saturday_cons_mem {s : Solver} {r : Resident} {cs : List Constraint}
    (h : friday_implies_saturday_cons s r = Except.ok cs)
    {d : Nat} (hd : d < s.num_days) (hf : d % 7 = 4)
    {sh : String} (hsh : sh ∈ s.shifts)
    {ls : String} (hls : shiftsLast s = Except.ok ls) :
    Constraint.mk [] (CKind.implication (Lit.mk (varName r.name d ls) true)
      (Lit.mk (varName r.name (d + 1) sh) true)) ∈ cs := by
  rw [friday_implies_saturday_cons] at h
  obtain ⟨lss, hlss, h2⟩ := exBind_ok h
  have hcs : lss.flatten = cs := exPure_ok h2
  have hdmem : d ∈ (List.range s.num_days).filter (fun d => d % 7 == 4) := by
    rw [List.mem_filter, List.mem_range]
    exact ⟨hd, by simp [hf]⟩
  obtain ⟨dl, hdl, hdlmem⟩ := exMapM_ok_mem hlss hdmem
  obtain ⟨c, hc, hcmem⟩ := exMapM_ok_mem hdl hsh
  obtain ⟨ls1, hls1, hc2⟩ := exBind_ok hc
  obtain ⟨v1, hv1, hc3⟩ := exBind_ok hc2
  obtain ⟨v2, hv2, hc4⟩ := exBind_ok hc3
  have hlseq : ls1 = ls := Except.ok.inj (hls1.symm.trans hls)
  have hce := exPure_ok hc4
  rw [← hcs]
  refine List.mem_flatten.mpr ⟨dl, hdlmem, ?_⟩
  rw [← hce, schedVar_ok hv1, schedVar_ok hv2, hlseq] at hcmem
  exact hcmem

theorem set_shift_expectations_em_mem {s : Solver} {r : Resident} {em : Emitted} {cr : Frac}
    (h : set_shift_expectations_em s r = Except.ok em)
    (hcr : getCallRatio s = Except.ok cr)
    {ls : String} (hls : shiftsLast s = Except.ok ls)
    (hall : ∀ d ∈ List.range s.num_days, schedVar s r.name d ls =
      Except.ok (varName r.name d ls)) :
    Constraint.mk [] (CKind.linear
        (((1 : Int), ("total_shifts") ++ "_taken_" ++ r.name) ::
          ((List.range s.num_days).map (fun d => varName r.name d ls)).map
            (fun v => ((-1 : Int), v))) Cmp.eq 0) ∈ em.cons ∧
    Constraint.mk [] (CKind.linear [((1 : Int), ("total_shifts") ++ "_taken_" ++ r.name)]
      Cmp.ge (pyInt (Frac.addInt (expectedNightShifts s r cr) (-1)))) ∈ em.cons ∧
    Constraint.mk [] (CKind.linear [((1 : Int), ("total_shifts") ++ "_taken_" ++ r.name)]
      Cmp.le (pyInt (Frac.addInt (expectedNightShifts s r cr) 1))) ∈ em.cons := by
  rw [set_shift_expectations_em] at h
  obtain ⟨cr1, hcr1, h2⟩ := exBind_ok h
  have hcreq : cr1 = cr := Except.ok.inj (hcr1.symm.trans hcr)
  obtain ⟨calc1, hcalc1, h3⟩ := exBind_ok h2
  obtain ⟨calc2, hcalc2, h4⟩ := exBind_ok h3
  have hem := exPure_ok h4
  have hc1 : calc1 = (List.range s.num_days).map (fun d => varName r.name d ls) := by
    have : exMapM (fun d => do
        let ls ← shiftsLast s
        schedVar s r.name d ls) (List.range s.num_days) =
        Except.ok ((List.range s.num_days).map (fun d => varName r.name d ls)) := by
      apply exMapM_ok_of_all
      intro x hx
      rw [hls]
      simpa [Bind.bind, Except.bind] using hall x hx
    exact Except.ok.inj (hcalc1.symm.trans this)
  rw [← hem, hcreq, hc1]
  refine ⟨?_, ?_, ?_⟩ <;> simp [Emitted.app, strictly_bounded_em]

/-! Semantic lemmas: reading facts about a solution out of modelSat. -/

theorem modelSat_cons {a : String → Int} {m : MState} {c : Constraint}
    (hs : modelSat a m = true) (hc : c ∈ m.cons) : conSat a c = true := by
  rw [modelSat, Bool.and_eq_true] at hs
  exact List.all_eq_true.mp hs.2 c hc

theorem modelSat_decl {a : String → Int} {m : MState} {x : String} {lo hi : Int}
    (hs : modelSat a m = true) (hd : (x, lo, hi) ∈ m.decls) : lo ≤ a x ∧ a x ≤ hi := by
  rw [modelSat, Bool.and_eq_true] at hs
  have := List.all_eq_true.mp hs.1 _ hd
  rw [Bool.and_eq_true, decide_eq_true_eq, decide_eq_true_eq] at this
  exact this

theorem conSat_always {a : String → Int} {k : CKind}
    (h : conSat a (Constraint.mk [] k) = true) : kindSat a k = true := by
  rw [conSat] at h
  simpa using h

theorem conSat_enforced_pos {a : String → Int} {v : String} {k : CKind}
    (h : conSat a (Constraint.mk [Lit.mk v true] k) = true) (hv : a v = 1) :
    kindSat a k = true := by
  rw [conSat] at h
  simp only [List.all_cons, List.all_nil, litVal, Bool.and_true, Bool.or_eq_true] at h
  rcases h with h | h
  · simp [hv] at h
  · exact h

theorem conSat_enforced_neg {a : String → Int} {v : String} {k : CKind}
    (h : conSat a (Constraint.mk [Lit.mk v false] k) = true) (hv : a v = 0) :
    kindSat a k = true := by
  rw [conSat] at h
  simp only [List.all_cons, List.all_nil, litVal, Bool.and_true, Bool.or_eq_true] at h
  rcases h with h | h
  · simp [hv] at h
  · exact h

theorem linear_single {a : String → Int} {v : String} {c : Cmp} {k : Int}
    (h : kindSat a (CKind.linear [((1 : Int), v)] c k) = true) :
    cmpB c (a v) k = true := by
  rw [kindSat] at h
  simpa [evalTerms] using h

theorem linear_single_eq {a : String → Int} {v : String} {k : Int}
    (h : kindSat a (CKind.linear [((1 : Int), v)] Cmp.eq k) = true) : a v = k := by
  have := linear_single h
  rw [cmpB] at this
  exact beq_iff_eq.mp this

theorem linear_single_ge {a : String → Int} {v : String} {k : Int}
    (h : kindSat a (CKind.linear [((1 : Int), v)] Cmp.ge k) = true) : k ≤ a v := by
  have := linear_single h
  rw [cmpB] at this
  exact decide_eq_true_eq.mp this

theorem linear_single_le {a : String → Int} {v : String} {k : Int}
    (h : kindSat a (CKind.linear [((1 : Int), v)] Cmp.le k) = true) : a v ≤ k := by
  have := linear_single h
  rw [cmpB] at this
  exact decide_eq_true_eq.mp this

theorem linear_single_ne {a : String → Int} {v : String} {k : Int}
    (h : kindSat a (CKind.linear [((1 : Int), v)] Cmp.ne k) = true) : a v ≠ k := by
  have := linear_single h
  rw [cmpB] at this
  exact bne_iff_ne.mp this

theorem eqKC_sem {a : String → Int} {v : String} {k : Int}
    (h : conSat a (eqKC v k) = true) : a v = k :=
  linear_single_eq (conSat_always h)

theorem atMostOne_pair_sem {a : String → Int} {v1 v2 : String}
    (h : kindSat a (CKind.atMostOne [Lit.mk v1 true, Lit.mk v2 true]) = true) :
    ¬(a v1 = 1 ∧ a v2 = 1) := by
  rw [kindSat, decide_eq_true_eq] at h
  rintro ⟨h1, h2⟩
  simp [List.countP_cons, litVal, h1, h2] at h

theorem implication_sem {a : String → Int} {v1 v2 : String}
    (h : kindSat a (CKind.implication (Lit.mk v1 true) (Lit.mk v2 true)) = true)
    (h1 : a v1 = 1) : a v2 = 1 := by
  rw [kindSat, Bool.or_eq_true] at h
  rcases h with h | h
  · rw [litVal] at h
    simp [h1] at h
  · rw [litVal] at h
    simpa using h

theorem exactlyOne_sem {a : String → Int} {lits : List Lit}
    (h : kindSat a (CKind.exactlyOne lits) = true) : lits.countP (litVal a) = 1 := by
  rw [kindSat] at h
  exact beq_iff_eq.mp h

theorem evalTerms_cons_neg (a : String → Int) (x : String) (l : List String) :
    evalTerms a (((1 : Int), x) :: l.map (fun v => ((-1 : Int), v))) =
      a x - (l.map a).sum := by
  induction l with
  | nil => simp [evalTerms]
  | cons z zs ih =>
    simp only [evalTerms, List.map_cons, List.map_map, List.sum_cons] at ih ⊢
    omega

/-! Claim theorems. -/

/-- Claim C1: for every configuration whose model compiles, every day
not in the no-fill set and every shift label, the compiled model
contains an exactly-one constraint over the assignment variables of
all configured residents for that day and shift, so in every solution
exactly one resident is assigned to that day and shift. -/
theorem C1_coverage_exactly_one (s : Solver) (m : MState) (a : String → Int)
    (d : Nat) (sh : String)
    (hok : setup_model s = Except.ok m)
    (hd : d < s.num_days) (hnf : s.nofill.contains d = false)
    (hsh : sh ∈ s.shifts)
    (hsat : modelSat a m = true) :
    Constraint.mk [] (CKind.exactlyOne (s.residents_info.map
      (fun r => Lit.mk (varName r.name d sh) true))) ∈ m.cons ∧
    s.residents_info.countP (fun r => a (varName r.name d sh) == 1) = 1 := by
  obtain ⟨e, cov, he, hcov, hdecls, hcons, hpens⟩ := setup_model_ok hok
  rw [coverage_cons] at hcov
  obtain ⟨lss, hlss, h2⟩ := exBind_ok hcov
  have hcove : lss.flatten = cov := exPure_ok h2
  have hdmem : d ∈ (List.range s.num_days).filter (fun d => !(s.nofill.contains d)) := by
    rw [List.mem_filter, List.mem_range]
    exact ⟨hd, by rw [hnf]; rfl⟩
  obtain ⟨dl, hdl, hdlmem⟩ := exMapM_ok_mem hlss hdmem
  obtain ⟨c, hc, hcmem⟩ := exMapM_ok_mem hdl hsh
  obtain ⟨lits, hlits, hc2⟩ := exBind_ok hc
  have hlitseq : lits = s.residents_info.map (fun r => Lit.mk (varName r.name d sh) true) := by
    have hcomp : exMapM (fun r => do
          let v ← schedVar s r.name d sh
          pure (Lit.mk v true)) s.residents_info =
        Except.ok (s.residents_info.map (fun r => Lit.mk (varName r.name d sh) true)) := by
      apply exMapM_ok_of_all
      intro r _
      have hcont : s.shifts.contains sh = true := List.elem_eq_true_of_mem hsh
      rw [show schedVar s r.name d sh = Except.ok (varName r.name d sh) by
        rw [schedVar, if_pos hd, hcont]; rfl]
      rfl
    exact Except.ok.inj (hlits.symm.trans hcomp)
  have hceq : Constraint.mk [] (CKind.exactlyOne lits) = c := exPure_ok hc2
  have hcmem2 : c ∈ m.cons := by
    rw [hcons]
    refine List.mem_append_right _ ?_
    rw [← hcove]
    exact List.mem_flatten.mpr ⟨dl, hdlmem, hcmem⟩
  rw [← hceq, hlitseq] at hcmem2
  refine ⟨hcmem2, ?_⟩
  have hk := exactlyOne_sem (conSat_always (modelSat_cons hsat hcmem2))
  rw [List.countP_map] at hk
  simpa [Function.comp, litVal] using hk

/-- Witness for C1 at the example senior run: on day 0, shift night,
exactly one of the two residents is assigned. -/
theorem C1_coverage_exactly_one_witness :
    egSolver.residents_info.countP (fun r => egAssign (varName r.name 0 (sNight)) == 1) = 1 :=
  (C1_coverage_exactly_one egSolver egModel egAssign 0 (sNight) rfl (by decide) (by decide)
    (by decide) (by rfl)).2

theorem shiftsLast_mem {s : Solver} {ls : String} (h : shiftsLast s = Except.ok ls) :
    ls ∈ s.shifts := by
  rw [shiftsLast] at h
  split at h
  · next x heq =>
    obtain ⟨hh, hx⟩ := List.mem_getLast?_eq_getLast (l := s.shifts) (x := x) (by simp [heq])
    have hlx : ls = x := (Except.ok.inj h).symm
    rw [hlx, hx]
    exact List.getLast_mem hh
  · exact absurd h (by simp)

/-- Claim C2 (code bug): the method cant_book_nofill_days exists but
is absent from both build-function lists of setup_model, so the
compiled model does not force assignment variables on no-fill days to
zero.  Witnessed by a solution of the compiled example senior model in
which resident B works the no-fill day 3; that same solution violates
the constraint cant_book_nofill_days would have emitted. -/
theorem C2_nofill_not_enforced :
    egSolver.nofill.contains 3 = true ∧
    setup_model egSolver = Except.ok egModel ∧
    modelSat egAssign egModel = true ∧
    egAssign (varName ("B") 3 (sNight)) = 1 ∧
    cant_book_nofill_days_cons egSolver (Resident.mk ("B") [] false false none []) =
      Except.ok [eqKC (varName ("B") 3 (sNight)) 0] ∧
    conSat egAssign (eqKC (varName ("B") 3 (sNight)) 0) = false := by
  exact ⟨by decide, by rfl, by rfl, by rfl, by rfl, by rfl⟩

/-- Claim C3 counterexample: under the senior classification the
build-function list omits trauma_day_call, and a compiled senior model
admits a solution in which a resident not flagged high-acuity works
the first shift of a working day. -/
theorem C3_counterexample_senior_day_call :
    egSolver.classification = "senior" ∧
    (Resident.mk ("B") [] false false none []) ∈ egSolver.residents_info ∧
    (Resident.mk ("B") [] false false none []).on_trauma = false ∧
    1 ∈ egSolver.working_days ∧
    shifts0 egSolver = Except.ok (sNight) ∧
    setup_model egSolver = Except.ok egModel ∧
    modelSat egAssign egModel = true ∧
    egAssign (varName ("B") 1 (sNight)) = 1 := by
  exact ⟨by rfl, by decide, by rfl, by decide, by rfl, by rfl, by rfl, by rfl⟩

/-- Claim C3 (amended to the junior classification): in a compiled
junior model, a resident not flagged high-acuity is forced to 0 on the
first shift of every working day, so the day-call shift on a working
day is only ever assigned to a high-acuity resident. -/
theorem C3_junior_day_call_forced (s : Solver) (m : MState) (a : String → Int)
    (r : Resident) (d : Nat) (s0 : String)
    (hok : setup_model s = Except.ok m)
    (hcls : s.classification = "junior")
    (hr : r ∈ s.residents_info) (hnt : r.on_trauma = false)
    (hd : d ∈ s.working_days)
    (h0 : shifts0 s = Except.ok s0)
    (hsat : modelSat a m = true) :
    a (varName r.name d s0) = 0 := by
  obtain ⟨e, cov, he, hcov, _, hcons, _⟩ := setup_model_ok hok
  obtain ⟨er, her, hsub⟩ := all_residents_emitted_mem he hr
  obtain ⟨c1, c2, c3, c4, e5, e6, e7, e8, c9, c10, eb, _, _, h3, _, _, _, _, _, _, _, hcons2⟩ :=
    resident_emitted_junior_parts hcls her
  have hmem := trauma_day_call_cons_mem h3 hnt hd h0
  have hin : eqKC (varName r.name d s0) 0 ∈ m.cons := by
    rw [hcons]
    refine List.mem_append_left _ (hsub _ ?_)
    rw [hcons2]
    simp only [List.mem_append]
    tauto
  exact eqKC_sem (modelSat_cons hsat hin)

/-- Witness for the amended C3 at the example junior run: the
non-trauma resident U is forced off the day shift of working day 1. -/
theorem C3_junior_day_call_witness :
    junAssign (varName ("U") 1 (sDay)) = 0 :=
  C3_junior_day_call_forced junSolver junModel junAssign
    (Resident.mk ("U") [] false false none []) 1 (sDay)
    rfl rfl (by decide) rfl (by decide) rfl (by rfl)

/-- Claim C4: in every compiled model, for every resident and every
day D with D + 1 in the horizon whose weekday is not the configured
ignored weekday (none for juniors, Friday for seniors), the model
asserts at-most-one over the pair (last shift of D, each shift of
D + 1), so no solution assigns both to the same resident. -/
theorem C4_post_call_at_most_one (s : Solver) (m : MState) (a : String → Int)
    (r : Resident) (d : Nat) (sh : String) (ls : String)
    (hok : setup_model s = Except.ok m)
    (hr : r ∈ s.residents_info)
    (hd : d + 1 < s.num_days)
    (hcls : s.classification = "junior" ∨ (s.classification = "senior" ∧ d % 7 ≠ 4))
    (hsh : sh ∈ s.shifts)
    (hls : shiftsLast s = Except.ok ls)
    (hsat : modelSat a m = true) :
    Constraint.mk [] (CKind.atMostOne
      [Lit.mk (varName r.name d ls) true, Lit.mk (varName r.name (d + 1) sh) true]) ∈ m.cons ∧
    ¬(a (varName r.name d ls) = 1 ∧ a (varName r.name (d + 1) sh) = 1) := by
  obtain ⟨e, cov, he, hcov, _, hcons, _⟩ := setup_model_ok hok
  obtain ⟨er, her, hsub⟩ := all_residents_emitted_mem he hr
  have hmem : Constraint.mk [] (CKind.atMostOne
      [Lit.mk (varName r.name d ls) true, Lit.mk (varName r.name (d + 1) sh) true]) ∈ er.cons := by
    rcases hcls with hj | ⟨hsen, hig⟩
    · obtain ⟨c1, c2, c3, c4, e5, e6, e7, e8, c9, c10, eb, _, _, _, h4, _, _, _, _, _, _, hcons2⟩ :=
        resident_emitted_junior_parts hj her
      have := post_call_days_cons_mem h4 hd (by rfl) hsh hls
      rw [hcons2]
      simp only [List.mem_append]
      tauto
    · obtain ⟨c2, c4, e6, e7, e8, c9, c10, _, h4, _, _, _, _, _, hcons2⟩ :=
        resident_emitted_senior_parts hsen her
      have := post_call_days_cons_mem h4 hd
        (by simp only [ignoreFilter, bne_iff_ne]; exact hig) hsh hls
      rw [hcons2]
      simp only [List.mem_append]
      tauto
  have hin : Constraint.mk [] (CKind.atMostOne
      [Lit.mk (varName r.name d ls) true, Lit.mk (varName r.name (d + 1) sh) true]) ∈ m.cons := by
    rw [hcons]
    exact List.mem_append_left _ (hsub _ hmem)
  exact ⟨hin, atMostOne_pair_sem (conSat_always (modelSat_cons hsat hin))⟩

/-- Witness for C4 at the example senior run: resident A does not work
both the last shift of day 0 and the shift of day 1. -/
theorem C4_post_call_witness :
    ¬(egAssign (varName ("A") 0 (sNight)) = 1 ∧ egAssign (varName ("A") 1 (sNight)) = 1) :=
  (C4_post_call_at_most_one egSolver egModel egAssign
    (Resident.mk ("A") [] false false none []) 0 (sNight) (sNight)
    rfl (by decide) (by decide) (Or.inr ⟨rfl, by decide⟩) (by decide) rfl (by rfl)).2

/-- Claim C5 counterexample: in a 12-day senior run, day 11 is a
Friday whose implied later day (Saturday, day 12) is outside the
horizon; instead of skipping that week, model compilation fails with
an index error, because friday_implies_saturday indexes day + 1
without a bounds check. -/
theorem C5_counterexample_unguarded_friday :
    c5solverE.isOk = true ∧
    c5solver.classification = "senior" ∧
    (11 : Nat) % 7 = 4 ∧
    11 < c5solver.num_days ∧
    ¬(11 + 1 < c5solver.num_days) ∧
    setup_model c5solver = Except.error ("IndexError: list index out of range") := by
  exact ⟨by rfl, by rfl, by decide, by decide, by decide, by rfl⟩

/-- Claim C5 (amended): whenever the model does compile, for every
resident and every Friday of the horizon, every solution in which the
resident works the last shift of that Friday also assigns them every
shift of the implied later day: two days later under the junior rule,
one day later under the senior rule.  When the later day is outside
the horizon the build fails with an index error instead of skipping
the week. -/
theorem C5_friday_implication (s : Solver) (m : MState) (a : String → Int)
    (r : Resident) (d : Nat) (gap : Nat) (sh : String) (ls : String)
    (hok : setup_model s = Except.ok m)
    (hr : r ∈ s.residents_info)
    (hd : d < s.num_days) (hf : d % 7 = 4)
    (hcls : (s.classification = "junior" ∧ gap = 2) ∨ (s.classification = "senior" ∧ gap = 1))
    (hsh : sh ∈ s.shifts)
    (hls : shiftsLast s = Except.ok ls)
    (hsat : modelSat a m = true)
    (hwork : a (varName r.name d ls) = 1) :
    a (varName r.name (d + gap) sh) = 1 := by
  obtain ⟨e, cov, he, hcov, _, hcons, _⟩ := setup_model_ok hok
  obtain ⟨er, her, hsub⟩ := all_residents_emitted_mem he hr
  have hmem : Constraint.mk [] (CKind.implication (Lit.mk (varName r.name d ls) true)
      (Lit.mk (varName r.name (d + gap) sh) true)) ∈ er.cons := by
    rcases hcls with ⟨hj, hgap⟩ | ⟨hsen, hgap⟩
    · obtain ⟨c1, c2, c3, c4, e5, e6, e7, e8, c9, c10, eb, _, _, _, _, _, _, _, _, h9, _, hcons2⟩ :=
        resident_emitted_junior_parts hj her
      have := friday_implies_sunday_cons_mem h9 hd hf hsh hls
      rw [hcons2, hgap]
      simp only [List.mem_append]
      tauto
    · obtain ⟨c2, c4, e6, e7, e8, c9, c10, _, _, _, _, _, h9, _, hcons2⟩ :=
        resident_emitted_senior_parts hsen her
      have := friday_implies_saturday_cons_mem h9 hd hf hsh hls
      rw [hcons2, hgap]
      simp only [List.mem_append]
      tauto
  have hin : Constraint.mk [] (CKind.implication (Lit.mk (varName r.name d ls) true)
      (Lit.mk (varName r.name (d + gap) sh) true)) ∈ m.cons := by
    rw [hcons]
    exact List.mem_append_left _ (hsub _ hmem)
  exact implication_sem (conSat_always (modelSat_cons hsat hin)) hwork

/-- Witness for the amended C5 at the example junior run: resident T
works the night shift of Friday 4, so T also works the day shift of
Sunday 6. -/
theorem C5_friday_implication_witness :
    junAssign (varName ("T") (4 + 2) (sDay)) = 1 :=
  C5_friday_implication junSolver junModel junAssign
    (Resident.mk ("T") [] true false none []) 4 2 (sDay) (sNight)
    rfl (by decide) (by decide) (by decide) (Or.inl ⟨rfl, rfl⟩) (by decide) rfl (by rfl) (by rfl)

/-- Claim C6 (code bug): penalize_multiple_fridays only asserts the
direction conflict-flag implies both-Fridays-worked (the converse is
commented out in the source), so the solver may leave the flag false.
In the 14-day senior run, resident X works the night shift of both
Friday 4 and Friday 11 in a solution whose Friday penalty variable is
0 and whose whole objective is 1, strictly below the configured
extra_friday_penalty_amount of 5: no fixed Friday penalty is
incurred, contradicting both the claim and the comment in the
source. -/
theorem C6_double_friday_no_penalty :
    c6solver.extra_friday_penalty_amount = 5 ∧
    setup_model c6solver = Except.ok c6model ∧
    modelSat c6assign c6model = true ∧
    c6assign (varName ("X") 4 (sNight)) = 1 ∧
    c6assign (varName ("X") 11 (sNight)) = 1 ∧
    c6assign (("penalty_X_Fridays_4_11")) = 0 ∧
    objectiveVal c6assign c6model = 1 := by
  exact ⟨by rfl, by rfl, by rfl, by rfl, by rfl, by rfl, by rfl⟩

/-- Claim C7 (code bug): disperse_call only asserts the direction
level-flag implies weekly-count-at-least-i, never the converse, so the
solver may leave every level flag false and the weekly penalty
variable at 0.  In the 14-day senior run with per-week cap 1, resident
X works 3 shifts in the aligned week of days 7 to 13, yet the weekly
dispersion penalty variable of that window is 0 in a solution of the
compiled model: no positive dispersion penalty is incurred,
contradicting the claim and the method docstring. -/
theorem C7_dispersion_no_penalty :
    c6solver.max_shifts_per_week = 1 ∧
    setup_model c6solver = Except.ok c6model ∧
    modelSat c6assign c6model = true ∧
    ((List.range' 7 7).map (fun d => c6assign (varName ("X") d (sNight)))).sum = 3 ∧
    c6assign (("X_week_1_exceeds_max")) = 1 ∧
    c6assign (("Week_1_penalty_X")) = 0 ∧
    objectiveVal c6assign c6model = 1 := by
  exact ⟨by rfl, by rfl, by rfl, by rfl, by rfl, by rfl, by rfl⟩

/-- The expectation constraints emitted for the override-zero resident. -/
def c8em : Emitted :=
  match set_shift_expectations_em c8solver c8res with
  | Except.ok e => e
  | Except.error _ => emptyEm

/-- Claim C8 counterexample: the source tests the manual override with
Python truthiness, so a supplied override of 0 is ignored and the
computed formula is used instead.  For the 28-day single-resident run
the emitted hard bounds are 27 and 29 (from the computed expectation
28), not -1 and 1 (which an honoured override of 0 would produce). -/
theorem C8_counterexample_zero_override :
    c8res.days_override = some 0 ∧
    c8solver.residents_info = [c8res] ∧
    getCallRatio c8solver = Except.ok (Frac.divInt 28 28) ∧
    pyInt (Frac.addInt (expectedNightShifts c8solver c8res (Frac.divInt 28 28)) (-1)) = 27 ∧
    pyInt (Frac.addInt (expectedNightShifts c8solver c8res (Frac.divInt 28 28)) 1) = 29 ∧
    pyInt (Frac.addInt (Frac.ofInt 0) (-1)) = -1 ∧
    pyInt (Frac.addInt (Frac.ofInt 0) 1) = 1 ∧
    set_shift_expectations_em c8solver c8res = Except.ok c8em ∧
    Constraint.mk [] (CKind.linear [((1 : Int), ("total_shifts") ++ "_taken_" ++ c8res.name)]
      Cmp.ge 27) ∈ c8em.cons := by
  exact ⟨rfl, by rfl, by rfl, by decide, by decide, by decide, by decide, by rfl, by decide⟩

/-- Claim C8 (amended): the expected total last-shift count equals
(horizon days - vacation days) x call ratio x (trauma multiplier when
high-acuity, else 1), with a supplied manual override replacing the
computed value only when the override is nonzero (an override of 0 is
falsy and ignored); the actual last-shift total of every solution is
then hard-bounded between int(expected - 1) and int(expected + 1). -/
theorem C8_expected_shifts_bounded (s : Solver) (m : MState) (a : String → Int)
    (r : Resident) (cr : Frac) (ls : String)
    (hok : setup_model s = Except.ok m)
    (hcls : s.classification = "junior" ∨ s.classification = "senior")
    (hr : r ∈ s.residents_info)
    (hcr : getCallRatio s = Except.ok cr)
    (hls : shiftsLast s = Except.ok ls)
    (hsat : modelSat a m = true) :
    pyInt (Frac.addInt (expectedNightShifts s r cr) (-1)) ≤
      ((List.range s.num_days).map (fun d => a (varName r.name d ls))).sum ∧
    ((List.range s.num_days).map (fun d => a (varName r.name d ls))).sum ≤
      pyInt (Frac.addInt (expectedNightShifts s r cr) 1) := by
  obtain ⟨e, cov, he, hcov, _, hcons, _⟩ := setup_model_ok hok
  obtain ⟨er, her, hsub⟩ := all_residents_emitted_mem he hr
  have hallsv : ∀ d ∈ List.range s.num_days, schedVar s r.name d ls =
      Except.ok (varName r.name d ls) := by
    intro d hdm
    have hcont : s.shifts.contains ls = true := List.elem_eq_true_of_mem (shiftsLast_mem hls)
    rw [schedVar, if_pos (List.mem_range.mp hdm), hcont]
    rfl
  have h8x : ∃ e8 : Emitted, set_shift_expectations_em s r = Except.ok e8 ∧
      ∀ c ∈ e8.cons, c ∈ er.cons := by
    rcases hcls with hj | hsen
    · obtain ⟨c1, c2, c3, c4, e5, e6, e7, e8, c9, c10, eb, _, _, _, _, _, _, _, h8, _, _, hcons2⟩ :=
        resident_emitted_junior_parts hj her
      exact ⟨e8, h8, fun c hcm => by rw [hcons2]; simp only [List.mem_append]; tauto⟩
    · obtain ⟨c2, c4, e6, e7, e8, c9, c10, _, _, _, _, h8, _, _, hcons2⟩ :=
        resident_emitted_senior_parts hsen her
      exact ⟨e8, h8, fun c hcm => by rw [hcons2]; simp only [List.mem_append]; tauto⟩
  obtain ⟨e8, h8, hsub8⟩ := h8x
  obtain ⟨hmem1, hmem2, hmem3⟩ := set_shift_expectations_em_mem h8 hcr hls hallsv
  have hin1 := modelSat_cons hsat
    (by rw [hcons]; exact List.mem_append_left _ (hsub _ (hsub8 _ hmem1)))
  have hin2 := modelSat_cons hsat
    (by rw [hcons]; exact List.mem_append_left _ (hsub _ (hsub8 _ hmem2)))
  have hin3 := modelSat_cons hsat
    (by rw [hcons]; exact List.mem_append_left _ (hsub _ (hsub8 _ hmem3)))
  have hk1 := conSat_always hin1
  simp only [kindSat, cmpB] at hk1
  have heq0 := beq_iff_eq.mp hk1
  rw [evalTerms_cons_neg] at heq0
  simp only [List.map_map, Function.comp_def] at heq0
  have hge := linear_single_ge (conSat_always hin2)
  have hle := linear_single_le (conSat_always hin3)
  omega

/-- Witness for the amended C8 at the example senior run: resident A
has 4 night shifts, within the bounds 2 and 4 computed from the
expectation 3.5. -/
theorem C8_expected_shifts_witness :
    pyInt (Frac.addInt (expectedNightShifts egSolver
        (Resident.mk ("A") [] false false none []) (Frac.divInt 6 12)) (-1)) ≤
      ((List.range egSolver.num_days).map
        (fun d => egAssign (varName ("A") d (sNight)))).sum ∧
    ((List.range egSolver.num_days).map
        (fun d => egAssign (varName ("A") d (sNight)))).sum ≤
      pyInt (Frac.addInt (expectedNightShifts egSolver
        (Resident.mk ("A") [] false false none []) (Frac.divInt 6 12)) 1) :=
  C8_expected_shifts_bounded egSolver egModel egAssign
    (Resident.mk ("A") [] false false none []) (Frac.divInt 6 12) (sNight)
    rfl (Or.inr rfl) (by decide) (by rfl) rfl (by rfl)

/-- Claim C9: for every calculation (a sum of variables), bounds and
descriptor handed to strictly_bounded, any model containing its
emissions hard-constrains the calculation between the bounds, the two
bound booleans are true exactly when the calculation sits at the lower
(resp. upper) bound, and the two booleans are appended to the penalty
list, each contributing its own value (1 when true) to the objective. -/
theorem C9_strictly_bounded_spec (s : Solver) (r : Resident) (calculation : List String)
    (lb ub : Int) (desc : String) (m : MState) (a : String → Int)
    (hc : ∀ c ∈ (strictly_bounded_em s r calculation lb ub desc).cons, c ∈ m.cons)
    (hd : ∀ dc ∈ (strictly_bounded_em s r calculation lb ub desc).decls, dc ∈ m.decls)
    (hsat : modelSat a m = true) :
    lb ≤ (calculation.map a).sum ∧ (calculation.map a).sum ≤ ub ∧
    (a (desc ++ "_lower_bound_" ++ r.name) = 1 ↔ (calculation.map a).sum = lb) ∧
    (a (desc ++ "_upper_bound_" ++ r.name) = 1 ↔ (calculation.map a).sum = ub) ∧
    (strictly_bounded_em s r calculation lb ub desc).pens =
      [desc ++ "_lower_bound_" ++ r.name, desc ++ "_upper_bound_" ++ r.name] ∧
    objectiveVal a (MState.mk [] [] (strictly_bounded_em s r calculation lb ub desc).pens) =
      a (desc ++ "_lower_bound_" ++ r.name) + a (desc ++ "_upper_bound_" ++ r.name) := by
  have m1 : Constraint.mk [] (CKind.linear (((1 : Int), desc ++ "_taken_" ++ r.name) ::
      calculation.map (fun v => ((-1 : Int), v))) Cmp.eq 0) ∈ m.cons :=
    hc _ (by simp [strictly_bounded_em])
  have m2 : Constraint.mk [] (CKind.linear [((1 : Int), desc ++ "_taken_" ++ r.name)]
      Cmp.ge lb) ∈ m.cons := hc _ (by simp [strictly_bounded_em])
  have m3 : Constraint.mk [] (CKind.linear [((1 : Int), desc ++ "_taken_" ++ r.name)]
      Cmp.le ub) ∈ m.cons := hc _ (by simp [strictly_bounded_em])
  have m4 : Constraint.mk [Lit.mk (desc ++ "_lower_bound_" ++ r.name) true]
      (CKind.linear [((1 : Int), desc ++ "_taken_" ++ r.name)] Cmp.eq lb) ∈ m.cons :=
    hc _ (by simp [strictly_bounded_em])
  have m5 : Constraint.mk [Lit.mk (desc ++ "_upper_bound_" ++ r.name) true]
      (CKind.linear [((1 : Int), desc ++ "_taken_" ++ r.name)] Cmp.eq ub) ∈ m.cons :=
    hc _ (by simp [strictly_bounded_em])
  have m6 : Constraint.mk [Lit.mk (desc ++ "_lower_bound_" ++ r.name) false]
      (CKind.linear [((1 : Int), desc ++ "_taken_" ++ r.name)] Cmp.ne lb) ∈ m.cons :=
    hc _ (by simp [strictly_bounded_em])
  have m7 : Constraint.mk [Lit.mk (desc ++ "_upper_bound_" ++ r.name) false]
      (CKind.linear [((1 : Int), desc ++ "_taken_" ++ r.name)] Cmp.ne ub) ∈ m.cons :=
    hc _ (by simp [strictly_bounded_em])
  have dlb : (0 : Int) ≤ a (desc ++ "_lower_bound_" ++ r.name) ∧
      a (desc ++ "_lower_bound_" ++ r.name) ≤ 1 :=
    modelSat_decl hsat (hd _ (by simp [strictly_bounded_em]))
  have dub : (0 : Int) ≤ a (desc ++ "_upper_bound_" ++ r.name) ∧
      a (desc ++ "_upper_bound_" ++ r.name) ≤ 1 :=
    modelSat_decl hsat (hd _ (by simp [strictly_bounded_em]))
  have hk1 := conSat_always (modelSat_cons hsat m1)
  simp only [kindSat, cmpB] at hk1
  have heq0 := beq_iff_eq.mp hk1
  rw [evalTerms_cons_neg] at heq0
  have hge := linear_single_ge (conSat_always (modelSat_cons hsat m2))
  have hle := linear_single_le (conSat_always (modelSat_cons hsat m3))
  refine ⟨by omega, by omega, ⟨?_, ?_⟩, ⟨?_, ?_⟩, rfl, ?_⟩
  · intro h1
    have := linear_single_eq (conSat_enforced_pos (modelSat_cons hsat m4) h1)
    omega
  · intro hsum
    by_contra hne
    have h0 : a (desc ++ "_lower_bound_" ++ r.name) = 0 := by omega
    exact linear_single_ne (conSat_enforced_neg (modelSat_cons hsat m6) h0) (by omega)
  · intro h1
    have := linear_single_eq (conSat_enforced_pos (modelSat_cons hsat m5) h1)
    omega
  · intro hsum
    by_contra hne
    have h0 : a (desc ++ "_upper_bound_" ++ r.name) = 0 := by omega
    exact linear_single_ne (conSat_enforced_neg (modelSat_cons hsat m7) h0) (by omega)
  · simp [objectiveVal, strictly_bounded_em]

/-- A small solver and resident for exercising strictly_bounded. -/
def dummySolver : Solver := Solver.mk ("junior") 3 2 [sNight] 1 5 2 [] 3 [] [] [] none

/-- Its resident. -/
def dummyRes : Resident := Resident.mk ("R") [] false false none []

/-- A model holding exactly the emissions of one strictly_bounded
call on the variable v with bounds 0 and 2. -/
def dummyM : MState :=
  MState.mk (strictly_bounded_em dummySolver dummyRes [("v")] 0 2 ("w")).decls
    (strictly_bounded_em dummySolver dummyRes [("v")] 0 2 ("w")).cons
    (strictly_bounded_em dummySolver dummyRes [("v")] 0 2 ("w")).pens

/-- A solution of that model: v = 1, interior of the band. -/
def dummyAsg : String → Int := mkAsg [(("v"), 1), (("w") ++ "_taken_" ++ ("R"), 1)]

/-- Witness for C9 at the small model: the calculation value 1 lies
within the bounds 0 and 2. -/
theorem C9_strictly_bounded_witness :
    (0 : Int) ≤ ([("v")].map dummyAsg).sum ∧ ([("v")].map dummyAsg).sum ≤ 2 :=
  ⟨(C9_strictly_bounded_spec dummySolver dummyRes [("v")] 0 2 ("w") dummyM dummyAsg
      (fun c hcm => hcm) (fun dc hdm => hdm) (by rfl)).1,
   (C9_strictly_bounded_spec dummySolver dummyRes [("v")] 0 2 ("w") dummyM dummyAsg
      (fun c hcm => hcm) (fun dc hdm => hdm) (by rfl)).2.1⟩

/-- Claim C10: constructing the solver with a non-empty residents_info
list raises before completing: the constructor loop calls
add_resident_info for each entry before self.nofill and
self.days_to_fill are assigned, and add_resident_info immediately
reads self.nofill, so the construction errors and residents can only
be registered by calling add_resident_info after construction. -/
theorem C10_init_nonempty_residents_error (num_days : Nat) (nofill : List Nat)
    (max_shifts_per_week : Nat) (extra_friday_penalty : Int) (r : Resident)
    (rest : List Resident) (holidays : List Nat) (shifts : List String)
    (classification : String) :
    mkSolver num_days nofill max_shifts_per_week extra_friday_penalty (r :: rest) holidays
      shifts classification = Except.error ("AttributeError: nofill") := rfl

/-- Witness for C10: a concrete one-resident construction errors. -/
theorem C10_init_witness :
    mkSolver 28 [] 1 5 [dummyRes] [] [sNight] ("junior") =
      Except.error ("AttributeError: nofill") :=
  C10_init_nonempty_residents_error 28 [] 1 5 dummyRes [] [] [sNight] ("junior")
